import Mathlib

/-!
Verification of the protowhat check-function core (`protowhat/checks/check_funcs.py`)
against its natural-language specification.

The tree data model follows the spec section 3: a Tree Node is an opaque value
with a type tag, named fields (each holding a node, a sequence, a scalar string,
or nothing) and a source span; a Parse Result is a node or a Parse Error marker.
The Python value `None` (used both for "no parser configured" and for an absent
field value) is one constructor, as in the source where both are the same value.
-/

namespace Protowhat

mutual

inductive Ast where
  | none_ : Ast
  | parseError : Ast
  | strv (s : String) : Ast
  | node (tag : String) (fields : Fields) (span : String) : Ast
  | listv (xs : AstList) : Ast

inductive Fields where
  | nil : Fields
  | cons (name : String) (val : Ast) (rest : Fields) : Fields

inductive AstList where
  | nil : AstList
  | cons (head : Ast) (tail : AstList) : AstList

end

def Ast.isNone : Ast → Bool
  | .none_ => true
  | _ => false

def Ast.isParseError : Ast → Bool
  | .parseError => true
  | _ => false

def listGet? {α : Type} : List α → Nat → Option α
  | [], _ => none
  | x :: _, 0 => some x
  | _ :: r, n + 1 => listGet? r n

/-- Python `getattr` on a tree node: the value of the named field, or `none`
standing for `AttributeError` (non-node values have no tree fields). -/
def Fields.lookup : Fields → String → Option Ast
  | .nil, _ => none
  | .cons n v r, name => if n = name then some v else r.lookup name

def AstList.get? : AstList → Nat → Option Ast
  | .nil, _ => none
  | .cons x _, 0 => some x
  | .cons _ r, n + 1 => r.get? n

/-- `ast._get_text(code)`: recover the source span covered by a node. Only tree
nodes carry a span (spec section 6, `extract_text(node, full_source_text)`); on
any other value the Python attribute access raises, modelled as `none`. -/
def Ast.getText (a : Ast) (_code : String) : Option String :=
  match a with
  | .node _ _ span => some span
  | _ => none

mutual

/-- Python `repr` of a parse tree: the canonical structural representation
compared by `has_equal_ast`. It covers the type tag and the named fields
recursively and ignores source positions, so structurally identical trees
parsed from different surface text render equal (spec section 8, reflexivity). -/
def Ast.render : Ast → String
  | .none_ => "None"
  | .parseError => "ParseError"
  | .strv s => "str<" ++ s ++ ">"
  | .node tag fs _ => tag ++ "(" ++ fs.render ++ ")"
  | .listv xs => "[" ++ xs.render ++ "]"

def Fields.render : Fields → String
  | .nil => ""
  | .cons n v r => n ++ "=" ++ v.render ++ "," ++ r.render

def AstList.render : AstList → String
  | .nil => ""
  | .cons x r => x.render ++ "," ++ r.render

end

/-- The AST Dispatcher Contract (spec section 6): node selection, node/field
description for diagnostics, and parsing of a snippet under a start rule. -/
structure Dispatcher where
  select : String → Option Nat → Ast → List Ast
  describe : Ast → String → Option Nat → Option String → Option String
  parse : String → String → Ast

/-- One history record, as built at `check_funcs.py:69` and `:121`:
a kind tag, the name/index parameters, and (for node selection) the student node. -/
structure Action where
  atype : String
  name : String
  index : Option Nat
  node : Option Ast

structure State where
  student_ast : Ast
  solution_ast : Ast
  student_code : String
  solution_code : String
  ast_dispatcher : Dispatcher
  history : List Action

/-- Result of running one primitive on a State, with the Reporter in its
abrupt-exit style (the style protowhat's `Reporter.do_test` uses: it raises,
so nothing after the report executes): `ok` is a returned State, `fatal` is a
propagating exception (TypeError / IndexError / AttributeError — the authoring
error channel), `testFail` is `state.do_test(msg)` (the student-facing failure
channel; the argument is the Python value passed, which can be `None`). -/
inductive Outcome where
  | ok (s : State) : Outcome
  | fatal (msg : String) : Outcome
  | testFail (msg : Option String) : Outcome

def Outcome.isTestFail : Outcome → Bool
  | .testFail _ => true
  | _ => false

/-- Python `x or MSG_CHECK_FALLBACK`: `None` and the empty string are falsy. -/
def MSG_CHECK_FALLBACK : String := "Your submission is incorrect. Try again!"

def orFallback : Option String → String
  | none => MSG_CHECK_FALLBACK
  | some s => if s = "" then MSG_CHECK_FALLBACK else s

/-- Modelled from the spec: `State.to_child` is defined on the State class,
outside the covered source. Per spec section 3 a child State carries the new
focus trees and history and inherits the source texts and dispatcher. -/
def State.to_child (s : State) (stu sol : Ast) (h : List Action) : State :=
  { s with student_ast := stu, solution_ast := sol, history := h }

/-- Modelled from the spec: `State.get_ast_path` is defined on the State class,
outside the covered source; it reconstructs a human-readable navigation path
from the history for diagnostics. The exact wording is not load-bearing here. -/
def State.get_ast_path (s : State) : String :=
  String.intercalate " of the " ((s.history.reverse.map (fun a => a.name)) ++ [ "highlighted code" ])

/-- `requires_ast` (check_funcs.py:6-24): guard precondition. Raise TypeError if
either tree is `None`; return the state unchanged (skip) if either tree is a
Parse Error; otherwise run the wrapped primitive. -/
def requires_ast (f : State → Outcome) (state : State) : Outcome :=
  if state.student_ast.isNone || state.solution_ast.isNone then
    .fatal "Trying to use ast, but it is None. Are you using a parser?"
  else if state.student_ast.isParseError || state.solution_ast.isParseError then
    .ok state
  else f state

/-- Body of `check_node` (check_funcs.py:56-72), run under the guard. -/
def check_node_inner (name : String) (index : Nat) (missing_msg : String)
    (priority : Option Nat) (state : State) : Outcome :=
  let sol_stmt_list := state.ast_dispatcher.select name priority state.solution_ast
  match listGet? sol_stmt_list index with
  | none => .fatal ("Cant get " ++ name ++ " statement at index " ++ toString index)
  | some sol_stmt =>
    let stu_stmt_list := state.ast_dispatcher.select name priority state.student_ast
    match listGet? stu_stmt_list index with
    | none =>
      .testFail (some (orFallback
        (state.ast_dispatcher.describe sol_stmt missing_msg (some index) none)))
    | some stu_stmt =>
      let action : Action :=
        { atype := "check_node", name := name, index := some index, node := some stu_stmt }
      .ok (state.to_child stu_stmt sol_stmt (state.history ++ [ action ]))

def check_node (state : State) (name : String) (index : Nat) (missing_msg : String)
    (priority : Option Nat) : Outcome :=
  requires_ast (check_node_inner name index missing_msg priority) state

/-- Error classes a Python field lookup can raise: only `IndexError` is caught
on the solution side of `check_field`; the bare `except` on the student side
catches all of them. -/
inductive LookupErr where
  | indexError : LookupErr
  | attributeError : LookupErr
  | typeError : LookupErr

/-- Python `v[i]` for a field value: lists and strings index (IndexError when
out of range), anything else raises TypeError. -/
def pyGetIndex (v : Ast) (i : Nat) : Except LookupErr Ast :=
  match v with
  | .listv xs =>
    match xs.get? i with
    | some x => .ok x
    | none => .error .indexError
  | .strv s =>
    match s.data.get? i with
    | some c => .ok (.strv (String.mk [ c ]))
    | none => .error .indexError
  | _ => .error .typeError

/-- `getattr(ast, name)` followed by optional `[index]` as in check_funcs.py:103-104
and 109-110. -/
def pyGetattrIndex (a : Ast) (name : String) (index : Option Nat) : Except LookupErr Ast :=
  match a with
  | .node _ fs _ =>
    match fs.lookup name with
    | none => .error .attributeError
    | some v =>
      match index with
      | none => .ok v
      | some i => pyGetIndex v i
  | _ => .error .attributeError

/-- Body of `check_field` (check_funcs.py:75-124), run under the guard. The
solution side catches only IndexError (re-raised fatally); AttributeError and
TypeError propagate fatally as themselves. The student side has a bare
`except`, then the explicit `stu_attr is None and sol_attr is not None` check
reports through `do_test(_msg)` with no fallback applied. -/
def check_field_inner (name : String) (index : Option Nat) (missing_msg : String)
    (state : State) : Outcome :=
  match pyGetattrIndex state.solution_ast name index with
  | .error .indexError => .fatal ("Cant get " ++ name ++ " attribute")
  | .error .attributeError => .fatal ("AttributeError: " ++ name)
  | .error .typeError => .fatal ("TypeError: value of " ++ name ++ " is not subscriptable")
  | .ok sol_attr =>
    match pyGetattrIndex state.student_ast name index with
    | .error _ =>
      .testFail (some (orFallback
        (state.ast_dispatcher.describe state.student_ast missing_msg index (some name))))
    | .ok stu_attr =>
      if stu_attr.isNone && !sol_attr.isNone then
        .testFail (state.ast_dispatcher.describe state.student_ast missing_msg index (some name))
      else
        let action : Action :=
          { atype := "check_field", name := name, index := index, node := none }
        .ok (state.to_child stu_attr sol_attr (state.history ++ [ action ]))

def check_field (state : State) (name : String) (index : Option Nat)
    (missing_msg : String) : Outcome :=
  requires_ast (check_field_inner name index missing_msg) state

/-- Boolean check that `n` starts the list `h`. -/
def startsWithSeq : List Char → List Char → Bool
  | [], _ => true
  | _ :: _, [] => false
  | a :: as, b :: bs => a == b && startsWithSeq as bs

/-- Boolean check that `n` occurs contiguously inside `h`. -/
def containsSeq : List Char → List Char → Bool
  | n, [] => startsWithSeq n []
  | n, h :: t => startsWithSeq n (h :: t) || containsSeq n t

/-- Python `needle in hay` on strings. -/
def pyIn (needle hay : String) : Bool := containsSeq needle.data hay.data

/-- The substring relation `pyIn` decides. -/
def IsSubstring (needle hay : String) : Prop :=
  ∃ s t, s ++ needle.data ++ t = hay.data

/-- Python `msg.format(...)` restricted to the placeholders the source templates
use: plain substitution of one named placeholder. -/
def pyFormat1 (template ph value : String) : String := template.replace ph value

/-- `has_code` (check_funcs.py:128-183). The regular-expression search
`re.search` is an external library call, modelled as the parameter
`re_search`; `fixed=True` bypasses it with Python `in`. No guard applies. -/
def has_code (re_search : String → String → Bool) (state : State) (text : String)
    (msg : String) (fixed : Bool) : Outcome :=
  let stu_ast := state.student_ast
  let stu_code := state.student_code
  match (if stu_ast.isParseError then some stu_code else stu_ast.getText stu_code) with
  | none => .fatal "AttributeError: _get_text"
  | some stu_text =>
    let m := pyFormat1 (pyFormat1 msg "{ast_path}" state.get_ast_path) "{text}" text
    let res := if fixed then pyIn text stu_text else re_search text stu_text
    if res then .ok state else .testFail (some m)

/-- The comparison target of `has_equal_ast` (check_funcs.py:219): the current
solution focus, or a fresh parse of the supplied snippet. -/
def heaTarget (state : State) (sql : Option String) (start : String) : Ast :=
  match sql with
  | none => state.solution_ast
  | some s => state.ast_dispatcher.parse s start

/-- Inner `get_str` of `has_equal_ast` (check_funcs.py:224-230): the snippet
when truthy, the value itself when it is a string, else `_get_text` with a
catch-all returning `None`. -/
def get_str (ast : Ast) (code : String) (sql : Option String) : Option String :=
  match sql with
  | some s => if s = "" then get_str_noSql ast code else some s
  | none => get_str_noSql ast code
where
  get_str_noSql (ast : Ast) (code : String) : Option String :=
    match ast with
    | .strv s => some s
    | _ => ast.getText code

/-- Body of `has_equal_ast` (check_funcs.py:186-238), run under the guard. -/
def has_equal_ast_inner (msg : String) (sql : Option String) (start : String)
    (exact : Bool) (state : State) : Outcome :=
  let sol_ast := heaTarget state sql start
  let stu_rep := state.student_ast.render
  let sol_rep := sol_ast.render
  let sol_str := get_str state.solution_ast state.solution_code sql
  let extra :=
    match sol_str with
    | some s =>
      if s = "" then "" else " The checker expected to find `" ++ s ++ "` in there."
    | none => ""
  let m := pyFormat1 (pyFormat1 msg "{ast_path}" state.get_ast_path) "{extra}" extra
  if exact then
    if sol_rep = stu_rep then .ok state else .testFail (some (orFallback (some m)))
  else
    if pyIn sol_rep stu_rep then .ok state else .testFail (some (orFallback (some m)))

def has_equal_ast (state : State) (msg : String) (sql : Option String)
    (start : String) (exact : Bool) : Outcome :=
  requires_ast (has_equal_ast_inner msg sql start exact) state

/-- `has_parsed_ast` (check_funcs.py:240-245): unconditional, no guard. -/
def has_parsed_ast (state : State) : Outcome :=
  if state.student_ast.isParseError || state.solution_ast.isParseError then
    .testFail (some "AST did not parse")
  else .ok state

/-- Sequencing of primitives in a chain: a later primitive runs only on an
`ok` State; a fatal error or a reported failure short-circuits. -/
def Outcome.andThen (o : Outcome) (f : State → Outcome) : Outcome :=
  match o with
  | .ok s => f s
  | .fatal m => .fatal m
  | .testFail m => .testFail m

/-- One narrowing-primitive invocation, as composed by a caller. -/
inductive StepSpec where
  | nodeStep (name : String) (index : Nat) (missing_msg : String) (priority : Option Nat) : StepSpec
  | fieldStep (name : String) (index : Option Nat) (missing_msg : String) : StepSpec

def runStep (sp : StepSpec) (st : State) : Outcome :=
  match sp with
  | .nodeStep n i mm pr => check_node st n i mm pr
  | .fieldStep n i mm => check_field st n i mm

/-- Both trees present and parsed: the guard invokes the wrapped primitive. -/
def guardPass (st : State) : Prop :=
  st.student_ast ≠ Ast.none_ ∧ st.solution_ast ≠ Ast.none_ ∧
    st.student_ast ≠ Ast.parseError ∧ st.solution_ast ≠ Ast.parseError

/-- A chain of narrowing primitives each of which actually narrowed: the guard
passed (no skip) and the primitive returned a child State. -/
inductive Chain : State → List StepSpec → State → Prop where
  | nil (st : State) : Chain st [] st
  | cons (st st' st'' : State) (sp : StepSpec) (sps : List StepSpec) :
      guardPass st → runStep sp st = .ok st' → Chain st' sps st'' →
      Chain st (sp :: sps) st''

/-- `sp` used the default `priority=None` (the Action records only name and
index, so replay can only use the default). -/
def stepDefaultPriority : StepSpec → Prop
  | .nodeStep _ _ _ pr => pr = none
  | .fieldStep _ _ _ => True

/-- Replaying one recorded Action against a pair of trees, using exactly the
recorded (type/field, index) data: node selection re-runs the dispatcher with
the recorded name and index (priority is not recorded, so the default `none`
is used), field selection re-runs the field/index lookup. -/
def replayAction (d : Dispatcher) (a : Action) (p : Ast × Ast) : Option (Ast × Ast) :=
  if a.atype = "check_node" then
    match a.index with
    | some i =>
      match listGet? (d.select a.name none p.1) i, listGet? (d.select a.name none p.2) i with
      | some stu, some sol => some (stu, sol)
      | _, _ => none
    | none => none
  else if a.atype = "check_field" then
    match pyGetattrIndex p.1 a.name a.index, pyGetattrIndex p.2 a.name a.index with
    | .ok stu, .ok sol => some (stu, sol)
    | _, _ => none
  else none

def replayHistory (d : Dispatcher) (acts : List Action) (p : Ast × Ast) : Option (Ast × Ast) :=
  match acts with
  | [] => some p
  | a :: rest =>
    match replayAction d a p with
    | none => none
    | some q => replayHistory d rest q

/-- Modelled from the spec: the Reporter contract (spec section 6) permits
`report_failure` to halt the chain by returning a terminal state that
downstream primitives recognize, instead of raising. `do_test` is not under
src/, so this models `check_node` under that permitted Reporter style: the
`except IndexError` handler calls `do_test`, which now returns (its value is
discarded by the source), so Python control continues to the next statement
(check_funcs.py:69), which reads the local `stu_stmt` that was never bound
and raises UnboundLocalError. -/
def check_node_returningReporter (state : State) (name : String) (index : Nat)
    (missing_msg : String) (priority : Option Nat) : Outcome :=
  requires_ast (fun state =>
    let sol_stmt_list := state.ast_dispatcher.select name priority state.solution_ast
    match listGet? sol_stmt_list index with
    | none => .fatal ("Cant get " ++ name ++ " statement at index " ++ toString index)
    | some sol_stmt =>
      match listGet? (state.ast_dispatcher.select name priority state.student_ast) index with
      | none =>
        .fatal "UnboundLocalError: local variable stu_stmt referenced before assignment"
      | some stu_stmt =>
        let action : Action :=
          { atype := "check_node", name := name, index := some index, node := some stu_stmt }
        .ok (state.to_child stu_stmt sol_stmt (state.history ++ [ action ]))) state

/-! Concrete fixtures used by the witnesses and counterexamples. -/

def leaf (tag span : String) : Ast := .node tag .nil span

def identB : Ast := leaf "Ident" "b"

def selA : Ast := .node "SelectStmt" (.cons "from_clause" identB .nil) "SELECT a FROM b"

def selB : Ast := leaf "SelectStmt" "SELECT x FROM y"

/-- A dispatcher that finds the same two statements under every tree, describes
nodes with a fixed phrase and parses every snippet to a leaf. -/
def dTwo : Dispatcher :=
  { select := fun _ _ _ => [ selA, selB ]
    describe := fun _ _ _ _ => some "the first SelectStmt"
    parse := fun s st => leaf st s }

/-- A dispatcher under which the student-side tree tagged Empty has no
matching sub-nodes while every other tree has one. -/
def dMiss : Dispatcher :=
  { select := fun _ _ t =>
      match t with
      | .node "Empty" _ _ => []
      | _ => [ selA ]
    describe := fun _ _ _ _ => some "the first SelectStmt"
    parse := fun s st => leaf st s }

/-- A priority-sensitive dispatcher, as the contract allows (a very high
priority searches deeper and can surface different nodes). -/
def dPrio : Dispatcher :=
  { select := fun _ pr _ =>
      match pr with
      | some _ => [ leaf "Deep" "d" ]
      | none => [ leaf "Shallow" "s" ]
    describe := fun _ _ _ _ => some "a node"
    parse := fun s st => leaf st s }

/-- A dispatcher whose parse of any snippet is a fixed leaf node tagged N. -/
def dParse : Dispatcher :=
  { select := fun _ _ _ => []
    describe := fun _ _ _ _ => none
    parse := fun _ _ => leaf "N" "n" }

def mmW : String := "Could not find the {index}{node_name}."

def stOKW : State :=
  { student_ast := leaf "Root" "c", solution_ast := leaf "Root" "c",
    student_code := "c", solution_code := "c", ast_dispatcher := dTwo, history := [] }

def stNoneW : State := { stOKW with student_ast := .none_ }

def stPEW : State := { stOKW with solution_ast := .parseError }

def cMissState : State :=
  { student_ast := leaf "Empty" "", solution_ast := leaf "Root" "",
    student_code := "", solution_code := "", ast_dispatcher := dMiss, history := [] }

def prioRoot : State :=
  { student_ast := leaf "Root" "r", solution_ast := leaf "Root" "r",
    student_code := "r", solution_code := "r", ast_dispatcher := dPrio, history := [] }

def prioStep : StepSpec := .nodeStep "X" 0 mmW (some 99)

def prioChild : State :=
  prioRoot.to_child (leaf "Deep" "d") (leaf "Deep" "d")
    [ { atype := "check_node", name := "X", index := some 0, node := some (leaf "Deep" "d") } ]

def w4step1 : StepSpec := .nodeStep "SelectStmt" 0 mmW none

def w4step2 : StepSpec := .fieldStep "from_clause" none mmW

def w4child1 : State :=
  stOKW.to_child selA selA
    [ { atype := "check_node", name := "SelectStmt", index := some 0, node := some selA } ]

def w4child2 : State :=
  w4child1.to_child identB identB
    (w4child1.history ++ [ { atype := "check_field", name := "from_clause", index := none, node := none } ])

def st10 : State :=
  { student_ast := leaf "N" "x", solution_ast := leaf "Sol" "sol",
    student_code := "x", solution_code := "sol", ast_dispatcher := dParse, history := [] }

def st10big : State :=
  { student_ast := .node "M" (.cons "f" (leaf "N" "x") .nil) "z",
    solution_ast := leaf "Sol2" "s2",
    student_code := "z", solution_code := "s2", ast_dispatcher := dParse, history := [] }

/-- A state whose student field value is the explicit None while the solution
side has a value, for the check_field mismatch witness. -/
def stFieldNone : State :=
  { student_ast := .node "SelectStmt" (.cons "where_clause" .none_ .nil) "s",
    solution_ast := .node "SelectStmt" (.cons "where_clause" identB .nil) "t",
    student_code := "s", solution_code := "t", ast_dispatcher := dTwo, history := [] }

/-- A state whose solution side did not parse, showing has_code needs no
solution-side success. -/
def stCodeW : State :=
  { student_ast := leaf "Where" "id < 10", solution_ast := .parseError,
    student_code := "SELECT a FROM b WHERE id < 10", solution_code := "???",
    ast_dispatcher := dTwo, history := [] }

/-- Membership of a named field value among a node's fields. -/
inductive FieldMem : String → Ast → Fields → Prop where
  | head (n : String) (v : Ast) (r : Fields) : FieldMem n v (.cons n v r)
  | tail (n : String) (v : Ast) (m : String) (w : Ast) (r : Fields) :
      FieldMem n v r → FieldMem n v (.cons m w r)

/-- Membership in a sequence field value. -/
inductive ListMem : Ast → AstList → Prop where
  | head (x : Ast) (r : AstList) : ListMem x (.cons x r)
  | tail (x y : Ast) (r : AstList) : ListMem x r → ListMem x (.cons y r)

/-- `SubAst a b`: the tree `a` occurs unchanged inside the tree `b` (as `b`
itself, as a field value, or inside a sequence field, recursively). This is
the "larger student tree containing the same structural match unchanged" of
spec section 8. -/
inductive SubAst : Ast → Ast → Prop where
  | refl (a : Ast) : SubAst a a
  | viaField (a : Ast) (tag : String) (fs : Fields) (sp : String) (n : String) (v : Ast) :
      FieldMem n v fs → SubAst a v → SubAst a (.node tag fs sp)
  | viaList (a : Ast) (xs : AstList) (x : Ast) :
      ListMem x xs → SubAst a x → SubAst a (.listv xs)

/-! Helper lemmas. -/

theorem isNone_eq_false {a : Ast} (h : a ≠ Ast.none_) : a.isNone = false := by
  cases a
  case none_ => exact absurd rfl h
  all_goals rfl

theorem isParseError_eq_false {a : Ast} (h : a ≠ Ast.parseError) : a.isParseError = false := by
  cases a
  case parseError => exact absurd rfl h
  all_goals rfl

theorem requires_ast_none (f : State → Outcome) (st : State)
    (h : st.student_ast = Ast.none_ ∨ st.solution_ast = Ast.none_) :
    requires_ast f st = .fatal "Trying to use ast, but it is None. Are you using a parser?" := by
  unfold requires_ast
  rcases h with h | h <;> rw [ h] <;> simp [ Ast.isNone]

theorem requires_ast_skip (f : State → Outcome) (st : State)
    (h1 : st.student_ast ≠ Ast.none_) (h2 : st.solution_ast ≠ Ast.none_)
    (h : st.student_ast = Ast.parseError ∨ st.solution_ast = Ast.parseError) :
    requires_ast f st = .ok st := by
  unfold requires_ast
  rw [ isNone_eq_false h1, isNone_eq_false h2]
  rcases h with h | h <;> rw [ h] <;> simp [ Ast.isParseError]

theorem requires_ast_run (f : State → Outcome) (st : State) (hg : guardPass st) :
    requires_ast f st = f st := by
  obtain ⟨h1, h2, h3, h4⟩ := hg
  unfold requires_ast
  rw [ isNone_eq_false h1, isNone_eq_false h2, isParseError_eq_false h3,
    isParseError_eq_false h4]
  rfl

theorem listGet?_some_of_lt {α : Type} :
    ∀ (l : List α) (i : Nat), i < l.length → ∃ x, listGet? l i = some x := by
  intro l
  induction l with
  | nil => intro i h; exact absurd h (by simp)
  | cons a as ih =>
    intro i h
    cases i with
    | zero => exact ⟨a, rfl⟩
    | succ j => exact ih j (Nat.lt_of_succ_lt_succ h)

theorem listGet?_none_of_le {α : Type} :
    ∀ (l : List α) (i : Nat), l.length ≤ i → listGet? l i = none := by
  intro l
  induction l with
  | nil => intro i _; rfl
  | cons a as ih =>
    intro i h
    cases i with
    | zero => exact absurd h (by simp)
    | succ j => exact ih j (Nat.le_of_succ_le_succ h)

theorem startsWithSeq_iff (n : List Char) :
    ∀ h : List Char, startsWithSeq n h = true ↔ ∃ t, n ++ t = h := by
  induction n with
  | nil => intro h; simp [ startsWithSeq]
  | cons a as ih =>
    intro h
    cases h with
    | nil =>
      simp [ startsWithSeq]
    | cons b bs =>
      rw [ startsWithSeq]
      constructor
      · intro hb
        obtain ⟨hab, hrest⟩ := Bool.and_eq_true_iff.mp hb
        obtain ⟨t, ht⟩ := (ih bs).mp hrest
        exact ⟨t, by rw [ List.cons_append, ht, beq_iff_eq.mp hab]⟩
      · rintro ⟨t, ht⟩
        rw [ List.cons_append] at ht
        obtain ⟨hab, hrest⟩ := List.cons.inj ht
        exact Bool.and_eq_true_iff.mpr ⟨beq_iff_eq.mpr hab, (ih bs).mpr ⟨t, hrest⟩⟩

theorem containsSeq_iff (n : List Char) :
    ∀ h : List Char, containsSeq n h = true ↔ ∃ s t, s ++ n ++ t = h := by
  intro h
  induction h with
  | nil =>
    rw [ containsSeq, startsWithSeq_iff]
    constructor
    · rintro ⟨t, ht⟩
      exact ⟨[], t, by simpa using ht⟩
    · rintro ⟨s, t, hst⟩
      rcases List.append_eq_nil.mp hst with ⟨hsn, htn⟩
      rcases List.append_eq_nil.mp hsn with ⟨-, hn⟩
      exact ⟨t, by rw [ hn]; simpa using htn⟩
  | cons b bs ih =>
    rw [ containsSeq, Bool.or_eq_true, startsWithSeq_iff, ih]
    constructor
    · rintro (⟨t, ht⟩ | ⟨s, t, hst⟩)
      · exact ⟨[], t, by simpa using ht⟩
      · exact ⟨b :: s, t, by rw [← hst]; simp⟩
    · rintro ⟨s, t, hst⟩
      cases s with
      | nil => exact Or.inl ⟨t, by simpa using hst⟩
      | cons c cs =>
        rw [ List.cons_append, List.cons_append] at hst
        obtain ⟨-, hrest⟩ := List.cons.inj hst
        exact Or.inr ⟨cs, t, by simpa using hrest⟩

theorem pyIn_iff (n h : String) : pyIn n h = true ↔ IsSubstring n h :=
  containsSeq_iff n.data h.data

theorem isSubstring_trans {a b c : String} (h1 : IsSubstring a b) (h2 : IsSubstring b c) :
    IsSubstring a c := by
  obtain ⟨s, t, hst⟩ := h1
  obtain ⟨u, v, huv⟩ := h2
  refine ⟨u ++ s, t ++ v, ?_⟩
  rw [← huv, ← hst]
  simp [ List.append_assoc]

theorem isSubstring_of_append (x y z : String) : IsSubstring y (x ++ y ++ z) := by
  refine ⟨x.data, z.data, ?_⟩
  simp [ String.data_append]

theorem fields_render_cons (n : String) (v : Ast) (r : Fields) :
    Fields.render (.cons n v r) = n ++ "=" ++ v.render ++ "," ++ r.render := rfl

theorem astList_render_cons (x : Ast) (r : AstList) :
    AstList.render (.cons x r) = x.render ++ "," ++ r.render := rfl

theorem ast_render_node (tag : String) (fs : Fields) (sp : String) :
    Ast.render (.node tag fs sp) = tag ++ "(" ++ fs.render ++ ")" := rfl

theorem ast_render_listv (xs : AstList) :
    Ast.render (.listv xs) = "[" ++ xs.render ++ "]" := rfl

theorem fieldMem_render {n : String} {v : Ast} {fs : Fields} (h : FieldMem n v fs) :
    IsSubstring v.render fs.render := by
  induction h with
  | head r =>
    have he : Fields.render (.cons n v r) = (n ++ "=") ++ v.render ++ ("," ++ r.render) := by
      rw [ fields_render_cons]
      simp [ String.ext_iff, String.data_append, List.append_assoc]
    rw [ he]
    exact isSubstring_of_append _ _ _
  | tail m w r _ ih =>
    refine isSubstring_trans ih ?_
    have he : Fields.render (.cons m w r) = (m ++ "=" ++ w.render ++ ",") ++ r.render ++ "" := by
      rw [ fields_render_cons]
      simp [ String.ext_iff, String.data_append, List.append_assoc]
    rw [ he]
    exact isSubstring_of_append _ _ _

theorem listMem_render {x : Ast} {xs : AstList} (h : ListMem x xs) :
    IsSubstring x.render xs.render := by
  induction h with
  | head r =>
    have he : AstList.render (.cons x r) = "" ++ x.render ++ ("," ++ r.render) := by
      rw [ astList_render_cons]
      simp [ String.ext_iff, String.data_append, List.append_assoc]
    rw [ he]
    exact isSubstring_of_append _ _ _
  | tail y r _ ih =>
    refine isSubstring_trans ih ?_
    have he : AstList.render (.cons y r) = (y.render ++ ",") ++ r.render ++ "" := by
      rw [ astList_render_cons]
      simp [ String.ext_iff, String.data_append, List.append_assoc]
    rw [ he]
    exact isSubstring_of_append _ _ _

theorem subAst_render {a b : Ast} (h : SubAst a b) : IsSubstring a.render b.render := by
  induction h with
  | refl => exact ⟨[], [], by simp⟩
  | viaField tag fs sp n v hmem _ ih =>
    refine isSubstring_trans (isSubstring_trans ih (fieldMem_render hmem)) ?_
    have he : Ast.render (.node tag fs sp) = (tag ++ "(") ++ fs.render ++ ")" := by
      rw [ ast_render_node]
    rw [ he]
    exact isSubstring_of_append _ _ _
  | viaList xs x hmem _ ih =>
    refine isSubstring_trans (isSubstring_trans ih (listMem_render hmem)) ?_
    rw [ ast_render_listv]
    exact isSubstring_of_append _ _ _

theorem narrow_step_history (st st2 : State) (sp : StepSpec)
    (hg : guardPass st) (hok : runStep sp st = .ok st2) :
    st2.ast_dispatcher = st.ast_dispatcher ∧
    ∃ a, st2.history = st.history ++ [ a] ∧
      (stepDefaultPriority sp →
        replayAction st.ast_dispatcher a (st.student_ast, st.solution_ast) =
          some (st2.student_ast, st2.solution_ast)) := by
  cases sp with
  | nodeStep n i mm pr =>
    rw [ runStep, check_node, requires_ast_run _ _ hg] at hok
    simp only [ check_node_inner] at hok
    cases hsol : listGet? (st.ast_dispatcher.select n pr st.solution_ast) i with
    | none => simp [ hsol] at hok
    | some sol =>
      simp only [ hsol] at hok
      cases hstu : listGet? (st.ast_dispatcher.select n pr st.student_ast) i with
      | none => simp [ hstu] at hok
      | some stu =>
        simp only [ hstu] at hok
        injection hok with hok2
        subst hok2
        refine ⟨rfl, _, rfl, ?_⟩
        intro hpr
        have hprn : pr = none := hpr
        subst hprn
        simp only [ replayAction, if_pos]
        simp only [ hstu, hsol]
        rfl
  | fieldStep n i mm =>
    rw [ runStep, check_field, requires_ast_run _ _ hg] at hok
    simp only [ check_field_inner] at hok
    cases hsol : pyGetattrIndex st.solution_ast n i with
    | error e => cases e <;> simp [ hsol] at hok
    | ok sol =>
      simp only [ hsol] at hok
      cases hstu : pyGetattrIndex st.student_ast n i with
      | error e => simp [ hstu] at hok
      | ok stu =>
        simp only [ hstu] at hok
        cases hcond : (stu.isNone && !sol.isNone) with
        | true => simp [ hcond] at hok
        | false =>
          simp only [ hcond, Bool.false_eq_true, if_false] at hok
          injection hok with hok2
          subst hok2
          refine ⟨rfl, _, rfl, ?_⟩
          intro _
          simp only [ replayAction]
          rw [ if_neg (by decide)]
          simp only [ hstu, hsol]
          rfl

theorem chain_replay (st fin : State) (sps : List StepSpec) (hc : Chain st sps fin)
    (hpr : ∀ sp ∈ sps, stepDefaultPriority sp) :
    ∃ acts, fin.history = st.history ++ acts ∧ acts.length = sps.length ∧
      replayHistory st.ast_dispatcher acts (st.student_ast, st.solution_ast) =
        some (fin.student_ast, fin.solution_ast) := by
  induction hc with
  | nil s => exact ⟨[], by simp, rfl, rfl⟩
  | cons s s2 s3 sp sps2 hg hok _ ih =>
    obtain ⟨hd, a, hh, hrepl⟩ :=
      narrow_step_history s s2 sp hg hok
    obtain ⟨acts, hacts, hlen, hreplay⟩ :=
      ih (fun q hq => hpr q (List.mem_cons_of_mem _ hq))
    refine ⟨a :: acts, ?_, ?_, ?_⟩
    · rw [ hacts, hh]
      simp
    · simp [ hlen]
    · rw [ replayHistory]
      simp only [ hrepl (hpr sp (List.mem_cons_self _ _))]
      rw [ hd] at hreplay
      exact hreplay

/-! Claim theorems. -/

/-- Claim C1: the guard precondition on the tree-dependent primitives
`check_node`, `check_field` and `has_equal_ast` is a three-way case split: an
absent (None) tree on either side fails fatally without invoking the wrapped
primitive; otherwise a Parse Error on either side returns the input State
unchanged and reports nothing; otherwise the wrapped primitive body runs. -/
theorem guard_three_way_split (st : State) (n mm : String) (i : Nat)
    (fn fmm : String) (fi : Option Nat) (pr : Option Nat)
    (msg : String) (sql : Option String) (start : String) (exact : Bool) :
    ((st.student_ast = Ast.none_ ∨ st.solution_ast = Ast.none_) →
      check_node st n i mm pr =
        .fatal "Trying to use ast, but it is None. Are you using a parser?" ∧
      check_field st fn fi fmm =
        .fatal "Trying to use ast, but it is None. Are you using a parser?" ∧
      has_equal_ast st msg sql start exact =
        .fatal "Trying to use ast, but it is None. Are you using a parser?") ∧
    (st.student_ast ≠ Ast.none_ → st.solution_ast ≠ Ast.none_ →
      (st.student_ast = Ast.parseError ∨ st.solution_ast = Ast.parseError) →
      check_node st n i mm pr = .ok st ∧
      check_field st fn fi fmm = .ok st ∧
      has_equal_ast st msg sql start exact = .ok st) ∧
    (guardPass st →
      check_node st n i mm pr = check_node_inner n i mm pr st ∧
      check_field st fn fi fmm = check_field_inner fn fi fmm st ∧
      has_equal_ast st msg sql start exact = has_equal_ast_inner msg sql start exact st) :=
  ⟨fun h => ⟨requires_ast_none _ _ h, requires_ast_none _ _ h, requires_ast_none _ _ h⟩,
   fun h1 h2 h => ⟨requires_ast_skip _ _ h1 h2 h, requires_ast_skip _ _ h1 h2 h,
     requires_ast_skip _ _ h1 h2 h⟩,
   fun hg => ⟨requires_ast_run _ _ hg, requires_ast_run _ _ hg, requires_ast_run _ _ hg⟩⟩

/-- Witness for C1 at three concrete states: an absent student tree, a Parse
Error solution tree, and a fully parsed state. -/
theorem guard_three_way_split_witness :
    check_node stNoneW "SelectStmt" 0 mmW none =
      .fatal "Trying to use ast, but it is None. Are you using a parser?" ∧
    check_node stPEW "SelectStmt" 0 mmW none = .ok stPEW ∧
    check_node stOKW "SelectStmt" 0 mmW none =
      check_node_inner "SelectStmt" 0 mmW none stOKW := by
  refine ⟨?_, ?_, ?_⟩
  · exact ((guard_three_way_split stNoneW "SelectStmt" mmW 0 "f" mmW none none
      "m" none "s" true).1 (Or.inl rfl)).1
  · exact ((guard_three_way_split stPEW "SelectStmt" mmW 0 "f" mmW none none
      "m" none "s" true).2.1 (fun h => Ast.noConfusion h) (fun h => Ast.noConfusion h)
      (Or.inr rfl)).1
  · exact ((guard_three_way_split stOKW "SelectStmt" mmW 0 "f" mmW none none
      "m" none "s" true).2.2 ⟨fun h => Ast.noConfusion h, fun h => Ast.noConfusion h,
      fun h => Ast.noConfusion h, fun h => Ast.noConfusion h⟩).1

/-- Claim C2: index fidelity of `check_node`. If the dispatcher finds exactly
`k` sub-nodes of the given type under the solution tree, then for `i < k`
(with the student lookup also succeeding) `check_node` returns the child State
focused on the i-th student and solution nodes, and for `i >= k` it raises the
fatal IndexError, not a student-facing report. -/
theorem check_node_index_fidelity (st : State) (name missing_msg : String)
    (priority : Option Nat) (i k : Nat) (hg : guardPass st)
    (hk : (st.ast_dispatcher.select name priority st.solution_ast).length = k) :
    (i < k → i < (st.ast_dispatcher.select name priority st.student_ast).length →
      ∃ stu sol,
        listGet? (st.ast_dispatcher.select name priority st.student_ast) i = some stu ∧
        listGet? (st.ast_dispatcher.select name priority st.solution_ast) i = some sol ∧
        check_node st name i missing_msg priority =
          .ok (st.to_child stu sol (st.history ++
            [ { atype := "check_node", name := name, index := some i, node := some stu } ]))) ∧
    (k ≤ i →
      check_node st name i missing_msg priority =
        .fatal ("Cant get " ++ name ++ " statement at index " ++ toString i)) := by
  constructor
  · intro hik hstu
    have hik2 : i < (st.ast_dispatcher.select name priority st.solution_ast).length := by
      rw [ hk]
      exact hik
    obtain ⟨sol, hsol⟩ := listGet?_some_of_lt _ i hik2
    obtain ⟨stu, hstuv⟩ := listGet?_some_of_lt _ i hstu
    refine ⟨stu, sol, hstuv, hsol, ?_⟩
    rw [ check_node, requires_ast_run _ _ hg]
    simp only [ check_node_inner, hsol, hstuv]
  · intro hki
    have hki2 : (st.ast_dispatcher.select name priority st.solution_ast).length ≤ i := by
      rw [ hk]
      exact hki
    have hnone := listGet?_none_of_le _ i hki2
    rw [ check_node, requires_ast_run _ _ hg]
    simp only [ check_node_inner, hnone]

/-- Witness for C2: a solution with exactly two SelectStmt nodes; index 1
succeeds onto the second one, index 2 is a fatal authoring error. -/
theorem check_node_index_fidelity_witness :
    check_node stOKW "SelectStmt" 1 mmW none =
      .ok (stOKW.to_child selB selB (stOKW.history ++
        [ { atype := "check_node", name := "SelectStmt", index := some 1, node := some selB } ])) ∧
    check_node stOKW "SelectStmt" 2 mmW none =
      .fatal ("Cant get " ++ "SelectStmt" ++ " statement at index " ++ toString 2) := by
  have hg : guardPass stOKW :=
    ⟨fun h => Ast.noConfusion h, fun h => Ast.noConfusion h,
     fun h => Ast.noConfusion h, fun h => Ast.noConfusion h⟩
  constructor
  · obtain ⟨stu, sol, h1, h2, h3⟩ :=
      (check_node_index_fidelity stOKW "SelectStmt" mmW none 1 2 hg rfl).1
        (by decide) (by decide)
    have e1 : listGet? (stOKW.ast_dispatcher.select "SelectStmt" none stOKW.student_ast) 1 =
        some selB := rfl
    have e2 : listGet? (stOKW.ast_dispatcher.select "SelectStmt" none stOKW.solution_ast) 1 =
        some selB := rfl
    rw [ e1] at h1
    rw [ e2] at h2
    injection h1 with h1b
    injection h2 with h2b
    rw [ h3, ← h1b, ← h2b]
  · exact (check_node_index_fidelity stOKW "SelectStmt" mmW none 2 2 hg rfl).2 (by decide)

/-- Claim C3: for a state where both trees parsed, `has_equal_ast` compares the
canonical structural representations of the student focus and the target (the
solution focus, or the parse of the supplied snippet). With `exact` it reports
a student-facing failure iff the representations differ; without `exact` it
reports iff the target representation is not a substring of the student one;
on success it returns the State unchanged. -/
theorem has_equal_ast_structural (st : State) (msg : String) (sql : Option String)
    (start : String) (exact : Bool) (hg : guardPass st) :
    (exact = true →
      ((heaTarget st sql start).render = st.student_ast.render →
        has_equal_ast st msg sql start exact = .ok st) ∧
      ((heaTarget st sql start).render ≠ st.student_ast.render →
        ∃ m, has_equal_ast st msg sql start exact = .testFail (some m))) ∧
    (exact = false →
      (IsSubstring (heaTarget st sql start).render st.student_ast.render →
        has_equal_ast st msg sql start exact = .ok st) ∧
      (¬ IsSubstring (heaTarget st sql start).render st.student_ast.render →
        ∃ m, has_equal_ast st msg sql start exact = .testFail (some m))) := by
  rw [ has_equal_ast, requires_ast_run _ _ hg]
  constructor
  · rintro rfl
    constructor
    · intro he
      simp [ has_equal_ast_inner, he]
    · intro hne
      simp only [ has_equal_ast_inner]
      rw [ if_neg hne]
      exact ⟨_, rfl⟩
  · rintro rfl
    constructor
    · intro hsub
      have hpy : pyIn (heaTarget st sql start).render st.student_ast.render = true :=
        (pyIn_iff _ _).mpr hsub
      simp [ has_equal_ast_inner, hpy]
    · intro hns
      have hpy : pyIn (heaTarget st sql start).render st.student_ast.render = false := by
        cases hv : pyIn (heaTarget st sql start).render st.student_ast.render
        · rfl
        · exact absurd ((pyIn_iff _ _).mp hv) hns
      simp only [ has_equal_ast_inner]
      rw [ hpy]
      exact ⟨_, rfl⟩

/-- Witness for C3: an exact comparison of structurally equal trees passes, and
a non-exact comparison against a parsed snippet whose representation occurs in
the student focus passes. -/
theorem has_equal_ast_structural_witness :
    has_equal_ast stOKW "Check the {ast_path}.{extra}" none "sql_script" true = .ok stOKW ∧
    has_equal_ast st10 mmW (some "id > 1") "expression" false = .ok st10 := by
  have hg1 : guardPass stOKW :=
    ⟨fun h => Ast.noConfusion h, fun h => Ast.noConfusion h,
     fun h => Ast.noConfusion h, fun h => Ast.noConfusion h⟩
  have hg2 : guardPass st10 :=
    ⟨fun h => Ast.noConfusion h, fun h => Ast.noConfusion h,
     fun h => Ast.noConfusion h, fun h => Ast.noConfusion h⟩
  constructor
  · exact ((has_equal_ast_structural stOKW "Check the {ast_path}.{extra}" none
      "sql_script" true hg1).1 rfl).1 rfl
  · exact ((has_equal_ast_structural st10 mmW (some "id > 1") "expression" false hg2).2
      rfl).1 ⟨[], [], by decide⟩

/-- Claim C4 (amended): every successful narrowing primitive builds a child
whose history is the parent history plus exactly one Action, and after `n`
successful narrowing primitives from a root the history has length `n`;
replaying the recorded (type/field, index) pairs from the root reproduces the
same focused sub-trees provided every `check_node` step used the default
priority (the priority argument is not recorded in the Action, so replay of a
non-default-priority step is not faithful — see the counterexample). -/
theorem history_append_only_and_replay :
    (∀ (st st2 : State) (sp : StepSpec), guardPass st → runStep sp st = .ok st2 →
      ∃ a, st2.history = st.history ++ [ a] ∧
        st2.history.length = st.history.length + 1) ∧
    (∀ (root fin : State) (sps : List StepSpec), Chain root sps fin →
      root.history = [] → (∀ sp ∈ sps, stepDefaultPriority sp) →
      fin.history.length = sps.length ∧
      replayHistory root.ast_dispatcher fin.history (root.student_ast, root.solution_ast) =
        some (fin.student_ast, fin.solution_ast)) := by
  constructor
  · intro st st2 sp hg hok
    obtain ⟨-, a, hh, -⟩ := narrow_step_history st st2 sp hg hok
    refine ⟨a, hh, ?_⟩
    rw [ hh]
    simp
  · intro root fin sps hc h0 hpr
    obtain ⟨acts, hacts, hlen, hrep⟩ := chain_replay root fin sps hc hpr
    rw [ hacts, h0]
    simp only [ List.nil_append]
    exact ⟨hlen, hrep⟩

/-- Witness for C4: a two-step chain (node selection then field selection) from
a root with empty history; the final history has length 2 and replays onto the
final focus. -/
theorem history_append_only_and_replay_witness :
    w4child2.history.length = [ w4step1, w4step2].length ∧
    replayHistory stOKW.ast_dispatcher w4child2.history (stOKW.student_ast, stOKW.solution_ast) =
      some (w4child2.student_ast, w4child2.solution_ast) := by
  have hg1 : guardPass stOKW :=
    ⟨fun h => Ast.noConfusion h, fun h => Ast.noConfusion h,
     fun h => Ast.noConfusion h, fun h => Ast.noConfusion h⟩
  have hg2 : guardPass w4child1 :=
    ⟨fun h => Ast.noConfusion h, fun h => Ast.noConfusion h,
     fun h => Ast.noConfusion h, fun h => Ast.noConfusion h⟩
  have hchain : Chain stOKW [ w4step1, w4step2] w4child2 :=
    Chain.cons _ w4child1 _ _ _ hg1 rfl
      (Chain.cons _ w4child2 _ _ _ hg2 rfl (Chain.nil _))
  have hpr : ∀ sp ∈ [ w4step1, w4step2], stepDefaultPriority sp := by
    intro sp hsp
    rcases List.mem_cons.mp hsp with h | h
    · rw [ h]
      exact rfl
    · rcases List.mem_cons.mp h with h2 | h2
      · rw [ h2]
        exact trivial
      · exact absurd h2 (List.not_mem_nil sp)
  exact (history_append_only_and_replay.2 stOKW w4child2 [ w4step1, w4step2] hchain rfl hpr)

/-- Counterexample to C4 as stated: with a priority-sensitive dispatcher (as
the contract allows) a chain of one successful `check_node` at priority 99
focuses the Deep node, but replaying the recorded (type, index) pair from the
root — the Action does not record the priority — selects the Shallow node, a
different sub-tree. -/
theorem replay_priority_counterexample :
    runStep prioStep prioRoot = .ok prioChild ∧
    prioChild.history.length = 1 ∧
    replayHistory prioRoot.ast_dispatcher prioChild.history
      (prioRoot.student_ast, prioRoot.solution_ast) =
      some (leaf "Shallow" "s", leaf "Shallow" "s") ∧
    (leaf "Shallow" "s").render ≠ prioChild.student_ast.render := by
  refine ⟨rfl, rfl, rfl, by decide⟩

/-- Claim C5: `has_parsed_ast` runs without the guard and reports the fixed
did-not-parse failure iff either tree is a Parse Error, otherwise it passes
the State through unchanged. -/
theorem has_parsed_ast_spec (st : State) :
    ((st.student_ast = Ast.parseError ∨ st.solution_ast = Ast.parseError) →
      has_parsed_ast st = .testFail (some "AST did not parse")) ∧
    (st.student_ast ≠ Ast.parseError → st.solution_ast ≠ Ast.parseError →
      has_parsed_ast st = .ok st) := by
  constructor
  · intro h
    unfold has_parsed_ast
    rcases h with h | h <;> rw [ h] <;> simp [ Ast.isParseError]
  · intro h1 h2
    unfold has_parsed_ast
    rw [ isParseError_eq_false h1, isParseError_eq_false h2]
    rfl

/-- Witness for C5: reports on a Parse Error state, passes a parsed state
through, and also passes a state with an absent (None) tree through — there is
no guard, so no fatal error either. -/
theorem has_parsed_ast_spec_witness :
    has_parsed_ast stPEW = .testFail (some "AST did not parse") ∧
    has_parsed_ast stOKW = .ok stOKW ∧
    has_parsed_ast stNoneW = .ok stNoneW :=
  ⟨(has_parsed_ast_spec stPEW).1 (Or.inr rfl),
   (has_parsed_ast_spec stOKW).2 (fun h => Ast.noConfusion h) (fun h => Ast.noConfusion h),
   (has_parsed_ast_spec stNoneW).2 (fun h => Ast.noConfusion h) (fun h => Ast.noConfusion h)⟩

/-- Claim C6: in `check_field`, when both lookups succeed without exception but
the student-side value is the explicit None while the solution-side value is
not, a student-facing failure is reported through the Reporter — with the
message produced by the same `describe` call (same node, template, field and
index arguments) as the lookup-failure case — instead of a child State. -/
theorem check_field_none_mismatch (st : State) (name missing_msg : String)
    (index : Option Nat) (sol_attr : Ast) (hg : guardPass st)
    (hsol : pyGetattrIndex st.solution_ast name index = .ok sol_attr)
    (hsoln : sol_attr.isNone = false)
    (hstu : pyGetattrIndex st.student_ast name index = .ok Ast.none_) :
    check_field st name index missing_msg =
      .testFail (st.ast_dispatcher.describe st.student_ast missing_msg index (some name)) := by
  rw [ check_field, requires_ast_run _ _ hg]
  simp only [ check_field_inner, hsol, hstu]
  rw [ hsoln]
  rfl

/-- Witness for C6: the student where_clause is None, the solution one is a
node; the dispatcher description is reported. -/
theorem check_field_none_mismatch_witness :
    check_field stFieldNone "where_clause" none mmW =
      .testFail (some "the first SelectStmt") := by
  have hg : guardPass stFieldNone :=
    ⟨fun h => Ast.noConfusion h, fun h => Ast.noConfusion h,
     fun h => Ast.noConfusion h, fun h => Ast.noConfusion h⟩
  exact check_field_none_mismatch stFieldNone "where_clause" mmW none identB hg rfl rfl rfl

/-- Claim C7: `has_code` tests the pattern against the student-side text of the
current focus — the whole original student source when the focused student
value is a Parse Error, otherwise the extracted span — using substring
containment when `fixed` and the regular-expression search otherwise; it
reports the path-annotated message iff the pattern is absent, and it imposes
no condition on the solution side (no guard). -/
theorem has_code_spec (re_search : String → String → Bool) (st : State)
    (text msg : String) (fixed : Bool) (stu_text : String)
    (htext : (st.student_ast = Ast.parseError ∧ stu_text = st.student_code) ∨
             (st.student_ast ≠ Ast.parseError ∧
               st.student_ast.getText st.student_code = some stu_text)) :
    ((if fixed then pyIn text stu_text else re_search text stu_text) = true →
      has_code re_search st text msg fixed = .ok st) ∧
    ((if fixed then pyIn text stu_text else re_search text stu_text) = false →
      has_code re_search st text msg fixed =
        .testFail (some (pyFormat1 (pyFormat1 msg "{ast_path}" st.get_ast_path) "{text}" text))) ∧
    (fixed = true → (pyIn text stu_text = true ↔ IsSubstring text stu_text)) := by
  have hsel : (if st.student_ast.isParseError then some st.student_code
      else st.student_ast.getText st.student_code) = some stu_text := by
    rcases htext with ⟨hpe, heq⟩ | ⟨hne, hgt⟩
    · rw [ hpe, heq]
      rfl
    · rw [ isParseError_eq_false hne]
      simpa using hgt
  refine ⟨?_, ?_, fun _ => pyIn_iff text stu_text⟩
  · intro hres
    simp only [ has_code]
    rw [ hsel]
    simp [ hres]
  · intro hres
    simp only [ has_code]
    rw [ hsel]
    simp [ hres]

/-- Witness for C7: a state whose solution side failed to parse; `has_code`
still runs on the student focus span, passing for a contained literal and
reporting the formatted message for an absent one. -/
theorem has_code_spec_witness :
    has_code pyIn stCodeW "id" mmW true = .ok stCodeW ∧
    has_code pyIn stCodeW "absent" mmW true =
      .testFail (some (pyFormat1 (pyFormat1 mmW "{ast_path}" stCodeW.get_ast_path)
        "{text}" "absent")) := by
  constructor
  · exact (has_code_spec pyIn stCodeW "id" mmW true "id < 10"
      (Or.inr ⟨fun h => Ast.noConfusion h, rfl⟩)).1 (by decide)
  · exact (has_code_spec pyIn stCodeW "absent" mmW true "id < 10"
      (Or.inr ⟨fun h => Ast.noConfusion h, rfl⟩)).2.1 (by decide)

/-- Claim C8: in `check_node`, when the solution-side lookup succeeds at the
index but the student-side list is too short, the failure is reported through
the Reporter with the dispatcher-described message, falling back to the
generic message when `describe` yields nothing; no child State is returned. -/
theorem check_node_student_missing (st : State) (name missing_msg : String)
    (priority : Option Nat) (i : Nat) (sol : Ast) (hg : guardPass st)
    (hsol : listGet? (st.ast_dispatcher.select name priority st.solution_ast) i = some sol)
    (hstu : listGet? (st.ast_dispatcher.select name priority st.student_ast) i = none) :
    check_node st name i missing_msg priority =
      .testFail (some (orFallback
        (st.ast_dispatcher.describe sol missing_msg (some i) none))) ∧
    (st.ast_dispatcher.describe sol missing_msg (some i) none = none →
      check_node st name i missing_msg priority = .testFail (some MSG_CHECK_FALLBACK)) := by
  have hmain : check_node st name i missing_msg priority =
      .testFail (some (orFallback
        (st.ast_dispatcher.describe sol missing_msg (some i) none))) := by
    rw [ check_node, requires_ast_run _ _ hg]
    simp only [ check_node_inner, hsol, hstu]
  refine ⟨hmain, fun hd => ?_⟩
  rw [ hmain, hd]
  rfl

/-- Witness for C8: the student tree has no SelectStmt at index 0 while the
solution does; the dispatcher description is reported. -/
theorem check_node_student_missing_witness :
    check_node cMissState "SelectStmt" 0 mmW none =
      .testFail (some "the first SelectStmt") := by
  have hg : guardPass cMissState :=
    ⟨fun h => Ast.noConfusion h, fun h => Ast.noConfusion h,
     fun h => Ast.noConfusion h, fun h => Ast.noConfusion h⟩
  exact (check_node_student_missing cMissState "SelectStmt" mmW none 0 selA hg rfl rfl).1

/-- Claim C9 (amended): the source relies on the abrupt-exit Reporter style —
`do_test` raises, so a `check_node` or `check_field` whose student-side lookup
failed halts the chain in a well-defined way, propagating the reported failure
past any downstream primitive; under the alternative terminal-state Reporter
style the same code instead fails with an unrelated unbound-local error (see
the counterexample). -/
theorem student_miss_halts_chain (st : State) (g : State → Outcome)
    (n mm fn fmm : String) (pr : Option Nat) (i : Nat) (fi : Option Nat)
    (hg : guardPass st) :
    (∀ sol, listGet? (st.ast_dispatcher.select n pr st.solution_ast) i = some sol →
      listGet? (st.ast_dispatcher.select n pr st.student_ast) i = none →
      check_node st n i mm pr =
        .testFail (some (orFallback (st.ast_dispatcher.describe sol mm (some i) none))) ∧
      (check_node st n i mm pr).andThen g =
        .testFail (some (orFallback (st.ast_dispatcher.describe sol mm (some i) none)))) ∧
    (∀ sol_attr e, pyGetattrIndex st.solution_ast fn fi = .ok sol_attr →
      pyGetattrIndex st.student_ast fn fi = .error e →
      check_field st fn fi fmm =
        .testFail (some (orFallback
          (st.ast_dispatcher.describe st.student_ast fmm fi (some fn)))) ∧
      (check_field st fn fi fmm).andThen g =
        .testFail (some (orFallback
          (st.ast_dispatcher.describe st.student_ast fmm fi (some fn))))) := by
  constructor
  · intro sol hsol hstu
    have h : check_node st n i mm pr =
        .testFail (some (orFallback (st.ast_dispatcher.describe sol mm (some i) none))) := by
      rw [ check_node, requires_ast_run _ _ hg]
      simp only [ check_node_inner, hsol, hstu]
    refine ⟨h, ?_⟩
    rw [ h]
    rfl
  · intro sol_attr e hsol hstu
    have h : check_field st fn fi fmm =
        .testFail (some (orFallback
          (st.ast_dispatcher.describe st.student_ast fmm fi (some fn)))) := by
      rw [ check_field, requires_ast_run _ _ hg]
      simp only [ check_field_inner, hsol, hstu]
    refine ⟨h, ?_⟩
    rw [ h]
    rfl

/-- Witness for C9: with the abrupt-exit Reporter, a failed student-side node
lookup reports and the chain short-circuits past a downstream primitive. -/
theorem student_miss_halts_chain_witness :
    check_node cMissState "SelectStmt" 0 mmW none =
      .testFail (some "the first SelectStmt") ∧
    (check_node cMissState "SelectStmt" 0 mmW none).andThen has_parsed_ast =
      .testFail (some "the first SelectStmt") := by
  have hg : guardPass cMissState :=
    ⟨fun h => Ast.noConfusion h, fun h => Ast.noConfusion h,
     fun h => Ast.noConfusion h, fun h => Ast.noConfusion h⟩
  exact (student_miss_halts_chain cMissState has_parsed_ast "SelectStmt" mmW "f" mmW
    none 0 none hg).1 selA rfl rfl

/-- Counterexample to C9 as stated: under the terminal-state Reporter style the
permitted contract offers, `check_node` on a failed student-side lookup does
not return the terminal outcome — Python control falls through the exception
handler and reads the unbound local `stu_stmt`, an unrelated fatal error. -/
theorem reporter_terminal_style_counterexample :
    check_node_returningReporter cMissState "SelectStmt" 0 mmW none =
      .fatal "UnboundLocalError: local variable stu_stmt referenced before assignment" ∧
    (check_node_returningReporter cMissState "SelectStmt" 0 mmW none).isTestFail = false ∧
    check_node cMissState "SelectStmt" 0 mmW none =
      .testFail (some "the first SelectStmt") :=
  ⟨rfl, rfl, rfl⟩

/-- Claim C10: sub-match monotonicity of non-exact comparison. If
`has_equal_ast` with a snippet and `exact=false` succeeds on a state, it also
succeeds on any parsed state with the same dispatcher whose larger student
tree contains the original student focus unchanged. -/
theorem has_equal_ast_submatch_mono (st st2 : State) (S msg msg2 start : String)
    (hg : guardPass st) (hg2 : guardPass st2)
    (hd : st2.ast_dispatcher = st.ast_dispatcher)
    (hsub : SubAst st.student_ast st2.student_ast)
    (hok : has_equal_ast st msg (some S) start false = .ok st) :
    has_equal_ast st2 msg2 (some S) start false = .ok st2 := by
  have h1 : pyIn (st.ast_dispatcher.parse S start).render st.student_ast.render = true := by
    rw [ has_equal_ast, requires_ast_run _ _ hg] at hok
    cases hpy : pyIn (st.ast_dispatcher.parse S start).render st.student_ast.render with
    | true => rfl
    | false =>
      exfalso
      simp [ has_equal_ast_inner, heaTarget, hpy] at hok
  have h2 : IsSubstring (st.ast_dispatcher.parse S start).render st.student_ast.render :=
    (pyIn_iff _ _).mp h1
  have h3 : IsSubstring st.student_ast.render st2.student_ast.render := subAst_render hsub
  have h4 : pyIn (st2.ast_dispatcher.parse S start).render st2.student_ast.render = true := by
    rw [ hd]
    exact (pyIn_iff _ _).mpr (isSubstring_trans h2 h3)
  rw [ has_equal_ast, requires_ast_run _ _ hg2]
  simp [ has_equal_ast_inner, heaTarget, h4]

/-- Witness for C10: the snippet parses to a node whose representation occurs
in the small student focus, and the larger student tree embeds that focus as a
field value; the non-exact comparison succeeds on both. -/
theorem has_equal_ast_submatch_mono_witness :
    has_equal_ast st10big mmW (some "snippet") "expression" false = .ok st10big := by
  have hg1 : guardPass st10 :=
    ⟨fun h => Ast.noConfusion h, fun h => Ast.noConfusion h,
     fun h => Ast.noConfusion h, fun h => Ast.noConfusion h⟩
  have hg2 : guardPass st10big :=
    ⟨fun h => Ast.noConfusion h, fun h => Ast.noConfusion h,
     fun h => Ast.noConfusion h, fun h => Ast.noConfusion h⟩
  have hsub : SubAst st10.student_ast st10big.student_ast :=
    SubAst.viaField _ "M" _ "z" "f" (leaf "N" "x") (FieldMem.head _ _ _) (SubAst.refl _)
  exact has_equal_ast_submatch_mono st10 st10big "snippet" mmW mmW "expression"
    hg1 hg2 rfl hsub rfl

end Protowhat
